import Mathlib

/-!
Shallow embedding of `Phase1/rail_search.py` (EU rail itinerary search):
the time-of-day arithmetic, the route data model, the route filter,
the connection search (direct / one-stop / two-stop) with deduplication,
and the result ranking.  Clock times are modelled at minute granularity
as `Fin 1440` (Python `datetime.time` values produced by `parse_time`
always have zero seconds); Python `int` minute gaps are `Nat` where the
code proves them non-negative and `Int` where the caller may pass a
negative value (`min_transfer`); CSV float prices are modelled as `Rat`.
-/

namespace RailSearch

/-- A time of day at minute granularity: minutes since midnight. -/
abbrev Time : Type := Fin 1440

/-- `minutes_between(t1, t2)` from `rail_search.py`: minutes from `t1`
forward to `t2`; if `t2` is before `t1` on the clock the code adds one
day (1440 minutes) to `t2` before subtracting. -/
def minutes_between (t1 t2 : Time) : Nat :=
  if t2.val < t1.val then t2.val + 1440 - t1.val else t2.val - t1.val

/-- Python `str.lower()` (ASCII): lower-case every character.
(`String.toLower` itself does not reduce inside the kernel, so the
character-list form is used throughout.) -/
def pyLower (s : String) : String := (s.toList.map Char.toLower).asString

/-- Python `str.strip()`: drop leading and trailing whitespace. -/
def pyStrip (s : String) : String :=
  ((s.toList.dropWhile Char.isWhitespace).reverse.dropWhile
    Char.isWhitespace).reverse.asString

/-- The `Route` dataclass: one scheduled single-leg service. -/
structure Route where
  route_id : String
  dep_city : String
  arr_city : String
  dep_time : Time
  arr_time : Time
  train_type : String
  days : List String
  price_first : Rat
  price_second : Rat
deriving DecidableEq

/-- `Route.duration_minutes`: the code combines both clock times with
today's date and, when arrival is strictly earlier than departure, adds
one day to the arrival before subtracting. -/
def Route.duration_minutes (r : Route) : Nat :=
  if r.arr_time.val < r.dep_time.val then
    r.arr_time.val + 1440 - r.dep_time.val
  else
    r.arr_time.val - r.dep_time.val

/-- The `Leg` dataclass: a thin wrapper around one `Route`. -/
structure Leg where
  route : Route
deriving DecidableEq

def Leg.dep_city (l : Leg) : String := l.route.dep_city
def Leg.arr_city (l : Leg) : String := l.route.arr_city
def Leg.dep_time (l : Leg) : Time := l.route.dep_time
def Leg.arr_time (l : Leg) : Time := l.route.arr_time
def Leg.duration_minutes (l : Leg) : Nat := l.route.duration_minutes

/-- The `Itinerary` dataclass: an ordered list of legs plus the
inter-leg transfer durations in minutes. -/
structure Itinerary where
  legs : List Leg
  transfers_minutes : List Nat
deriving DecidableEq

/-- `Itinerary.duration_minutes`: sum of leg durations plus sum of
transfer durations. -/
def Itinerary.duration_minutes (it : Itinerary) : Nat :=
  (it.legs.map Leg.duration_minutes).sum + it.transfers_minutes.sum

/-- `Itinerary.price(cls)`: first-class fares summed when
`cls.lower() == "first"`, else second-class fares summed. -/
def Itinerary.price (it : Itinerary) (cls : String) : Rat :=
  if pyLower cls = "first" then
    (it.legs.map (fun l => l.route.price_first)).sum
  else
    (it.legs.map (fun l => l.route.price_second)).sum

/-- The `DAY_ALIASES` table mapping lower-case day spellings to
canonical three-letter codes. -/
def DAY_ALIASES : List (String × String) :=
  [("mon", "Mon"), ("monday", "Mon"),
   ("tue", "Tue"), ("tuesday", "Tue"),
   ("wed", "Wed"), ("wednesday", "Wed"),
   ("thu", "Thu"), ("thursday", "Thu"),
   ("fri", "Fri"), ("friday", "Fri"),
   ("sat", "Sat"), ("saturday", "Sat"),
   ("sun", "Sun"), ("sunday", "Sun")]

/-- Lookup in `DAY_ALIASES` with a default, i.e. Python
`DAY_ALIASES.get(key, default)`. -/
def dayAliasGet (key default : String) : String :=
  match DAY_ALIASES.lookup key with
  | some v => v
  | none => default

/-- Python `str.title()` for ASCII text: the first letter of every
alphabetic run is upper-cased, the following letters lower-cased. -/
def pyTitle (s : String) : String :=
  (s.toList.foldl
    (fun (acc : List Char × Bool) c =>
      if c.isAlpha then
        (acc.1 ++ [if acc.2 then c.toLower else c.toUpper], true)
      else
        (acc.1 ++ [c], false))
    ([], false)).1.asString

/-- Case-insensitive-ready substring test: Python `needle in hay`. -/
def strContains (hay needle : String) : Bool :=
  decide (needle.toList <:+: hay.toList)

/-!
`parse_time` tries the `strptime` formats `%H:%M`, `%H.%M`, `%H%M` in
order on the stripped input and raises
`ValueError(f"Unrecognized time format: {s!r}")` when none matches.
`strptime`'s `%H` directive matches, with backtracking, the regex
alternatives `2[0-3] | [0-1]\d | \d`, and `%M` matches
`[0-5]\d | \d`; the whole string must be consumed.
-/

/-- The `%H` directive alternatives, in regex order, each returning the
parsed hour and the remaining characters. -/
def hourAlts (cs : List Char) : List (Nat × List Char) :=
  (match cs with
   | c1 :: c2 :: rest =>
     (if c1 = '2' ∧ '0' ≤ c2 ∧ c2 ≤ '3' then
        [(20 + (c2.toNat - 48), rest)] else []) ++
     (if (c1 = '0' ∨ c1 = '1') ∧ c2.isDigit then
        [((c1.toNat - 48) * 10 + (c2.toNat - 48), rest)] else [])
   | _ => []) ++
  (match cs with
   | c :: rest => if c.isDigit then [(c.toNat - 48, rest)] else []
   | [] => [])

/-- The `%M` directive alternatives, in regex order. -/
def minuteAlts (cs : List Char) : List (Nat × List Char) :=
  (match cs with
   | c1 :: c2 :: rest =>
     if '0' ≤ c1 ∧ c1 ≤ '5' ∧ c2.isDigit then
       [((c1.toNat - 48) * 10 + (c2.toNat - 48), rest)] else []
   | _ => []) ++
  (match cs with
   | c :: rest => if c.isDigit then [(c.toNat - 48, rest)] else []
   | [] => [])

/-- Match one whole format (`%H`, an optional literal separator, `%M`),
with regex backtracking across the directive alternatives; the input
must be consumed entirely. -/
def matchSep (sep : Option Char) (cs : List Char) : Option (List Char) :=
  match sep with
  | none => some cs
  | some c =>
    match cs with
    | c' :: r => if c' = c then some r else none
    | [] => none

/-- After the hour and separator, match `%M` and require the rest of
the input to be empty; assemble the time of day. -/
def finishMinutes (h : Nat) (cs : List Char) : Option Time :=
  (minuteAlts cs).findSome? fun mr =>
    if mr.2 = [] then
      if hlt : h * 60 + mr.1 < 1440 then some (Fin.mk (h * 60 + mr.1) hlt)
      else none
    else none

def matchFmt (sep : Option Char) (cs : List Char) : Option Time :=
  (hourAlts cs).findSome? fun hr =>
    match matchSep sep hr.2 with
    | none => none
    | some r2 => finishMinutes hr.1 r2

/-- `parse_time(s)`: strip, then try `"%H:%M"`, `"%H.%M"`, `"%H%M"` in
order; raise a descriptive `ValueError` when none matches. -/
def parse_time (s : String) : Except String Time :=
  let t := pyStrip s
  match matchFmt (some ':') t.toList with
  | some v => .ok v
  | none =>
    match matchFmt (some '.') t.toList with
    | some v => .ok v
    | none =>
      match matchFmt none t.toList with
      | some v => .ok v
      | none => .error ("Unrecognized time format: " ++ t)

/-!
`filter_routes`: every constraint is optional; a `None` (or, for the
strings Python treats as falsy, empty) constraint imposes nothing.
The keyword constraints forwarded via `**kwargs` by the search
functions are bundled in `Kwargs`; `dep_city`/`arr_city` stay separate
parameters as in the Python signature.
-/

structure Kwargs where
  train_type : Option String := none
  days : Option (List String) := none
  dep_time_from : Option String := none
  dep_time_to : Option String := none
  arr_time_from : Option String := none
  arr_time_to : Option String := none
  max_price_first : Option Rat := none
  max_price_second : Option Rat := none

/-- `x.lower() if x else None`: an absent or empty (falsy) string
normalizes to `none`. -/
def normOpt (s : Option String) : Option String :=
  match s with
  | none => none
  | some s => if s = "" then none else some (pyLower s)

/-- `set(DAY_ALIASES.get(d.strip().lower(), d.strip().title()) for d in days)
if days else None`: an absent or empty (falsy) list normalizes to
`none`. -/
def normDaySet (days : Option (List String)) : Option (List String) :=
  match days with
  | none => none
  | some ds =>
    if ds = [] then none
    else some (ds.map (fun d => dayAliasGet (pyLower (pyStrip d)) (pyTitle (pyStrip d))))

/-- `parse_time(x) if x else None`, propagating the `ValueError`. -/
def parseOptTime (s : Option String) : Except String (Option Time) :=
  match s with
  | none => .ok none
  | some s => if s = "" then .ok none else (parse_time s).map some

/-- The departure-window logic of the `filter_routes` loop body
(lines 205-221), pass/reject as a Bool.  The two `< 0` rejections are
kept although `minutes_between` never returns a negative value (the
source marks them unreachable), and the `pass` statements are no-ops. -/
def dep_window_pass (dtf dtt : Option Time) (t : Time) : Bool :=
  match dtf with
  | none => true
  | some f =>
    if minutes_between f t < 0 then false
    else
      match dtt with
      | some tto =>
        let dmin := minutes_between f t
        let dmax := minutes_between f tto
        if 0 ≤ dmax then decide (0 ≤ dmin ∧ dmin ≤ dmax) else true
      | none => !decide (minutes_between f t < 0)

/-- The arrival-window logic of the `filter_routes` loop body
(lines 223-228): only enforced when both bounds are present. -/
def arr_window_pass (atf att : Option Time) (t : Time) : Bool :=
  match atf, att with
  | some f, some tto =>
    let amin := minutes_between f t
    let amax := minutes_between f tto
    if 0 ≤ amax then decide (0 ≤ amin ∧ amin ≤ amax) else true
  | _, _ => true

/-- The whole per-route test of the `filter_routes` loop body: the
conjunction of the city/type substring checks, the day-overlap check,
both window checks and the fare ceilings. -/
def route_passes (dcn acn ttn : Option String) (day_set : Option (List String))
    (dtf dtt atf att : Option Time) (mpf mps : Option Rat) (r : Route) : Bool :=
  (match dcn with
   | none => true
   | some c => strContains (pyLower r.dep_city) c) &&
  (match acn with
   | none => true
   | some c => strContains (pyLower r.arr_city) c) &&
  (match ttn with
   | none => true
   | some c => strContains (pyLower r.train_type) c) &&
  (match day_set with
   | none => true
   | some ds => r.days.any (fun d => ds.contains d)) &&
  dep_window_pass dtf dtt r.dep_time &&
  arr_window_pass atf att r.arr_time &&
  (match mpf with
   | none => true
   | some m => !decide (m < r.price_first)) &&
  (match mps with
   | none => true
   | some m => !decide (m < r.price_second))

/-- `filter_routes`: normalize the constraints, parse the window bounds
(raising on the first unparseable one, in source order), then keep the
routes passing every supplied constraint. -/
def filter_routes (routes : List Route) (dep_city arr_city : Option String)
    (kw : Kwargs) : Except String (List Route) :=
  match parseOptTime kw.dep_time_from with
  | .error e => .error e
  | .ok dtf =>
    match parseOptTime kw.dep_time_to with
    | .error e => .error e
    | .ok dtt =>
      match parseOptTime kw.arr_time_from with
      | .error e => .error e
      | .ok atf =>
        match parseOptTime kw.arr_time_to with
        | .error e => .error e
        | .ok att =>
          .ok (routes.filter
            (route_passes (normOpt dep_city) (normOpt arr_city)
              (normOpt kw.train_type) (normDaySet kw.days) dtf dtt atf att
              kw.max_price_first kw.max_price_second))

/-!
`find_connected_itineraries`: filter once up front, build the
adjacency index keyed by lower-cased departure city (`routes_by_dep`,
a dict of insertion-ordered buckets, modelled as a function from key to
bucket), then enumerate direct, one-stop and two-stop itineraries and
deduplicate by route-id sequence.  `min_transfer` is a caller-supplied
Python `int`, hence `Int`.
-/

/-- The `routes_by_dep` index: `setdefault(key, []).append(r)` over the
filtered routes, key `r.dep_city.lower()`. -/
def build_index (rs : List Route) : String → List Route :=
  rs.foldl
    (fun idx r k =>
      if k = pyLower r.dep_city then idx k ++ [r] else idx k)
    (fun _ => [])

/-- `routes_from_city(routes_by_dep, city)`, i.e.
`routes_by_dep.get(city.lower(), [])`. -/
def routes_from_city (idx : String → List Route) (city : String) : List Route :=
  idx (pyLower city)

/-- The direct (0-stop) phase: every indexed route departing the origin
whose arrival city equals the destination case-insensitively. -/
def direct_itins (idx : String → List Route) (dep_city arr_city : String) :
    List Itinerary :=
  (routes_from_city idx dep_city).filterMap fun r =>
    if pyLower r.arr_city = pyLower arr_city then
      some ⟨[⟨r⟩], []⟩
    else none

/-- The one-stop phase: chain `r1` from the origin with `r2` from
`r1`'s arrival city, require the destination match and
`transfer >= min_transfer`.  The source's conditional under
`datetime.combine(...) < datetime.combine(...)` ends in `pass` and is a
no-op. -/
def one_stop_itins (idx : String → List Route) (dep_city arr_city : String)
    (min_transfer : Int) : List Itinerary :=
  (routes_from_city idx dep_city).flatMap fun r1 =>
    (routes_from_city idx r1.arr_city).filterMap fun r2 =>
      if pyLower r2.arr_city = pyLower arr_city then
        let transfer := minutes_between r1.arr_time r2.dep_time
        if (transfer : Int) < min_transfer then none
        else some ⟨[⟨r1⟩, ⟨r2⟩], [transfer]⟩
      else none

/-- The two-stop phase: chain `r1`, `r2`, `r3`; both transfers must
meet the minimum and `r3` must arrive at the destination. -/
def two_stop_itins (idx : String → List Route) (dep_city arr_city : String)
    (min_transfer : Int) : List Itinerary :=
  (routes_from_city idx dep_city).flatMap fun r1 =>
    (routes_from_city idx r1.arr_city).flatMap fun r2 =>
      let transfer1 := minutes_between r1.arr_time r2.dep_time
      if (transfer1 : Int) < min_transfer then []
      else
        (routes_from_city idx r2.arr_city).filterMap fun r3 =>
          if pyLower r3.arr_city = pyLower arr_city then
            let transfer2 := minutes_between r2.arr_time r3.dep_time
            if (transfer2 : Int) < min_transfer then none
            else some ⟨[⟨r1⟩, ⟨r2⟩, ⟨r3⟩], [transfer1, transfer2]⟩
          else none

/-- The `results` list before deduplication: direct phase, then the
one-stop phase when `max_stops >= 1`, then the two-stop phase when
`max_stops >= 2`. -/
def connected_raw (filtered : List Route) (dep_city arr_city : String)
    (max_stops : Nat) (min_transfer : Int) : List Itinerary :=
  let idx := build_index filtered
  direct_itins idx dep_city arr_city ++
  (if 1 ≤ max_stops then one_stop_itins idx dep_city arr_city min_transfer
   else []) ++
  (if 2 ≤ max_stops then two_stop_itins idx dep_city arr_city min_transfer
   else [])

/-- The dedup key: the ordered tuple of the legs' route ids. -/
def itinKey (it : Itinerary) : List String :=
  it.legs.map fun l => l.route.route_id

/-- The dedup loop with its `seen` set of keys. -/
def dedupGo (seen : List (List String)) : List Itinerary → List Itinerary
  | [] => []
  | it :: rest =>
    if itinKey it ∈ seen then dedupGo seen rest
    else it :: dedupGo (itinKey it :: seen) rest

/-- The final deduplication pass of `find_connected_itineraries`. -/
def dedup_itineraries (results : List Itinerary) : List Itinerary :=
  dedupGo [] results

/-- `find_connected_itineraries`: filter (note: no city constraint is
passed to the filter), enumerate, deduplicate.  A `ValueError` from a
window bound propagates. -/
def find_connected_itineraries (routes : List Route)
    (dep_city arr_city : String) (max_stops : Nat) (min_transfer : Int)
    (kw : Kwargs) : Except String (List Itinerary) :=
  (filter_routes routes none none kw).map fun filtered =>
    dedup_itineraries (connected_raw filtered dep_city arr_city max_stops min_transfer)

/-!
`search_itineraries` (minus the CSV loading, which is the external
collaborator's job): run the connected search on the loaded routes,
sort by the configured key pair, apply the result cap.  Python
`list.sort(key=...)` produces a list sorted with respect to the
lexicographic order on the key tuples; it is modelled by `mergeSort`
with the corresponding Boolean total preorder.
-/

/-- Ordering used by `sort_by="duration"`: key
`(it.duration_minutes, it.price(cls))`, compared lexicographically. -/
def leDuration (cls : String) (a b : Itinerary) : Bool :=
  a.duration_minutes < b.duration_minutes ||
  (a.duration_minutes == b.duration_minutes && a.price cls ≤ b.price cls)

/-- Ordering used by `sort_by="price"`: key
`(it.price(cls), it.duration_minutes)`, compared lexicographically. -/
def lePrice (cls : String) (a b : Itinerary) : Bool :=
  a.price cls < b.price cls ||
  (a.price cls == b.price cls && a.duration_minutes ≤ b.duration_minutes)

/-- `search_itineraries` after the routes are loaded: connected search,
sort (`"price"` key pair, else the `"duration"` one), then the
`limit` cap (`itineraries[:limit]` unless `limit is None`).  Python's
`list.sort` is a stable sort by the key tuple; a stable sort on a total
preorder is a unique function of its input, so it is modelled by
insertion sort over the same key order. -/
def search_itineraries (routes : List Route)
    (dep_city arr_city : Option String) (kw : Kwargs) (cls : String)
    (max_stops : Nat) (min_transfer : Int) (sort_by : String)
    (limit : Option Nat) : Except String (List Itinerary) :=
  (find_connected_itineraries routes (dep_city.getD "") (arr_city.getD "")
      max_stops min_transfer kw).map fun its =>
    let sorted :=
      if sort_by = "price" then
        List.insertionSort (fun a b => lePrice cls a b = true) its
      else
        List.insertionSort (fun a b => leDuration cls a b = true) its
    match limit with
    | none => sorted
    | some n => sorted.take n

/-!
The date anchoring made explicit: `minutes_between` and
`Route.duration_minutes` combine both clock times with
`datetime.today()` before subtracting.  The variants below take the
ambient day (as a day index since an arbitrary epoch) as an explicit
parameter, exactly as `datetime.combine(datetime.today(), t)` produces
the absolute minute `day * 1440 + t`.
-/

/-- `minutes_between` with the ambient date `day` explicit. -/
def minutes_between_on (day : Nat) (t1 t2 : Time) : Nat :=
  let d1 := day * 1440 + t1.val
  let d2 := day * 1440 + t2.val
  (if d2 < d1 then d2 + 1440 else d2) - d1

/-- `Route.duration_minutes` with the ambient date `day` explicit. -/
def Route.duration_minutes_on (day : Nat) (r : Route) : Nat :=
  let dt_dep := day * 1440 + r.dep_time.val
  let dt_arr := day * 1440 + r.arr_time.val
  (if dt_arr < dt_dep then dt_arr + 1440 else dt_arr) - dt_dep

/-! Concrete sample data used by the witness theorems. -/

/-- Paris→Lyon 08:00-10:00 (scenario A/B). -/
def rParisLyon : Route :=
  { route_id := "R1", dep_city := "Paris", arr_city := "Lyon"
    dep_time := ⟨480, by decide⟩, arr_time := ⟨600, by decide⟩
    train_type := "TGV", days := ["Mon"]
    price_first := 100, price_second := 50 }

/-- Lyon→Nice 10:30-13:00 (scenario B). -/
def rLyonNice : Route :=
  { route_id := "R2", dep_city := "Lyon", arr_city := "Nice"
    dep_time := ⟨630, by decide⟩, arr_time := ⟨780, by decide⟩
    train_type := "TGV", days := ["Mon"]
    price_first := 100, price_second := 50 }

/-- A slow direct Paris→Nice 08:00-14:00 service. -/
def rParisNice : Route :=
  { route_id := "R3", dep_city := "Paris", arr_city := "Nice"
    dep_time := ⟨480, by decide⟩, arr_time := ⟨840, by decide⟩
    train_type := "IC", days := ["Mon"]
    price_first := 80, price_second := 40 }

/-- A route departing and arriving in the same city. -/
def rLoop : Route :=
  { route_id := "RL", dep_city := "Paris", arr_city := "Paris"
    dep_time := ⟨540, by decide⟩, arr_time := ⟨600, by decide⟩
    train_type := "IC", days := ["Mon"]
    price_first := 10, price_second := 5 }

/-- A midnight-crossing route 23:00→01:00 (scenario D). -/
def rWrap : Route :=
  { route_id := "RW", dep_city := "A", arr_city := "B"
    dep_time := ⟨1380, by decide⟩, arr_time := ⟨60, by decide⟩
    train_type := "N", days := []
    price_first := 10, price_second := 5 }

/-- Specification-side description of the deduplication
("first occurrence wins, original order otherwise preserved"): keep the
head and drop every later itinerary carrying the same route-id key. -/
def keepFirstByKey : List Itinerary → List Itinerary
  | [] => []
  | it :: rest =>
    it :: keepFirstByKey (rest.filter fun x => decide (itinKey x ≠ itinKey it))
termination_by l => l.length
decreasing_by
  simp only [List.length_cons]
  exact Nat.lt_succ_of_le (List.length_filter_le _ rest)

/-- Claim C5: `minutes_between` always lands in `[0, 1439]`,
`minutes_between t t = 0`, and when `t2` is earlier than `t1` on the
clock the result is the forward gap wrapped by 24 hours. -/
theorem minutes_between_range_refl_wrap (t1 t2 : Time) :
    0 ≤ minutes_between t1 t2 ∧ minutes_between t1 t2 ≤ 1439 ∧
    minutes_between t1 t1 = 0 ∧
    (t2.val < t1.val → minutes_between t1 t2 = t2.val + 1440 - t1.val) := by
  obtain ⟨v1, h1⟩ := t1
  obtain ⟨v2, h2⟩ := t2
  simp only [minutes_between]
  refine ⟨Nat.zero_le _, ?_, ?_, ?_⟩
  · split <;> omega
  · split <;> omega
  · intro h
    split <;> omega

/-- Witness for C5 at the midnight-crossing pair 23:00, 01:00. -/
theorem minutes_between_range_refl_wrap_witness :
    0 ≤ minutes_between ⟨1380, by decide⟩ ⟨60, by decide⟩ ∧
    minutes_between ⟨1380, by decide⟩ ⟨60, by decide⟩ ≤ 1439 ∧
    minutes_between ⟨1380, by decide⟩ ⟨1380, by decide⟩ = 0 ∧
    minutes_between ⟨1380, by decide⟩ ⟨60, by decide⟩ = 60 + 1440 - 1380 := by
  have h := minutes_between_range_refl_wrap ⟨1380, by decide⟩ ⟨60, by decide⟩
  exact ⟨h.1, h.2.1, h.2.2.1, h.2.2.2 (by decide)⟩

/-- Claim C6: `Route.duration_minutes` coincides with
`minutes_between dep_time arr_time` on every route; in particular the
23:00→01:00 route has duration 120 minutes. -/
theorem duration_eq_minutes_between :
    (∀ r : Route, r.duration_minutes = minutes_between r.dep_time r.arr_time) ∧
    rWrap.duration_minutes = 120 := by
  constructor
  · intro r
    rfl
  · decide

/-- Claim C10: making the `datetime.today()` anchoring explicit, the
results of `minutes_between` and `Route.duration_minutes` do not depend
on the ambient day, and agree with the date-free definitions the search
pipeline is built on. -/
theorem date_independence (d1 d2 : Nat) (t1 t2 : Time) (r : Route) :
    minutes_between_on d1 t1 t2 = minutes_between_on d2 t1 t2 ∧
    minutes_between_on d1 t1 t2 = minutes_between t1 t2 ∧
    Route.duration_minutes_on d1 r = Route.duration_minutes_on d2 r ∧
    Route.duration_minutes_on d1 r = r.duration_minutes := by
  obtain ⟨v1, h1⟩ := t1
  obtain ⟨v2, h2⟩ := t2
  simp only [minutes_between_on, minutes_between, Route.duration_minutes_on,
    Route.duration_minutes]
  refine ⟨?_, ?_, ?_, ?_⟩ <;> split_ifs <;> omega

/-- Claim C1: with both bounds of a window supplied (and parseable), a
route passes the departure (resp. arrival) window check of
`filter_routes` exactly when
`minutes_between(from, candidate) <= minutes_between(from, to)`, the
wrap-aware arc membership; with only one bound supplied the window
imposes no restriction at all. -/
theorem window_filter_iff (routes : List Route) (f tto : Time) (fs ts : String)
    (hfs : fs ≠ "") (hts : ts ≠ "")
    (hf : parse_time fs = .ok f) (ht : parse_time ts = .ok tto) :
    (∀ cand : Time,
      (dep_window_pass (some f) (some tto) cand = true ↔
        minutes_between f cand ≤ minutes_between f tto) ∧
      (arr_window_pass (some f) (some tto) cand = true ↔
        minutes_between f cand ≤ minutes_between f tto)) ∧
    filter_routes routes none none
        { dep_time_from := some fs, dep_time_to := some ts } =
      .ok (routes.filter fun r =>
        decide (minutes_between f r.dep_time ≤ minutes_between f tto)) ∧
    filter_routes routes none none
        { arr_time_from := some fs, arr_time_to := some ts } =
      .ok (routes.filter fun r =>
        decide (minutes_between f r.arr_time ≤ minutes_between f tto)) ∧
    filter_routes routes none none { dep_time_from := some fs } = .ok routes ∧
    filter_routes routes none none { dep_time_to := some ts } = .ok routes ∧
    filter_routes routes none none { arr_time_from := some fs } = .ok routes ∧
    filter_routes routes none none { arr_time_to := some ts } = .ok routes := by
  have hwin : ∀ cand : Time,
      (dep_window_pass (some f) (some tto) cand = true ↔
        minutes_between f cand ≤ minutes_between f tto) ∧
      (arr_window_pass (some f) (some tto) cand = true ↔
        minutes_between f cand ≤ minutes_between f tto) := by
    intro cand
    constructor
    · simp [dep_window_pass]
    · simp [arr_window_pass]
  refine ⟨hwin, ?_, ?_, ?_, ?_, ?_, ?_⟩
  · simp only [filter_routes, parseOptTime, hfs, hts, hf, ht, if_neg,
      Except.map]
    simp only [hfs, hts, reduceIte, hf, ht, Except.map]
    congr 1
    apply List.filter_congr
    intro r _
    simp only [route_passes, arr_window_pass, normOpt, normDaySet,
      Bool.true_and, Bool.and_true]
    by_cases hP : minutes_between f r.dep_time ≤ minutes_between f tto
    · simp [hP, ((hwin r.dep_time).1).mpr hP]
    · rw [decide_eq_false hP]
      exact Bool.eq_false_iff.mpr fun h => hP ((hwin r.dep_time).1.mp h)
  · simp only [filter_routes, parseOptTime, hfs, hts, if_neg, Except.map]
    simp only [hfs, hts, reduceIte, hf, ht, Except.map]
    congr 1
    apply List.filter_congr
    intro r _
    simp only [route_passes, dep_window_pass, normOpt, normDaySet,
      Bool.true_and, Bool.and_true]
    by_cases hP : minutes_between f r.arr_time ≤ minutes_between f tto
    · simp [hP, ((hwin r.arr_time).2).mpr hP]
    · rw [decide_eq_false hP]
      exact Bool.eq_false_iff.mpr fun h => hP ((hwin r.arr_time).2.mp h)
  · simp only [filter_routes, parseOptTime, hfs, reduceIte, hf, Except.map]
    congr 1
    apply List.filter_eq_self.mpr
    intro r _
    simp [route_passes, dep_window_pass, arr_window_pass, normOpt, normDaySet]
  · simp only [filter_routes, parseOptTime, hts, reduceIte, ht, Except.map]
    congr 1
    apply List.filter_eq_self.mpr
    intro r _
    simp [route_passes, dep_window_pass, arr_window_pass, normOpt, normDaySet]
  · simp only [filter_routes, parseOptTime, hfs, reduceIte, hf, Except.map]
    congr 1
    apply List.filter_eq_self.mpr
    intro r _
    simp [route_passes, dep_window_pass, arr_window_pass, normOpt, normDaySet]
  · simp only [filter_routes, parseOptTime, hts, reduceIte, ht, Except.map]
    congr 1
    apply List.filter_eq_self.mpr
    intro r _
    simp [route_passes, dep_window_pass, arr_window_pass, normOpt, normDaySet]

/-- Witness for C1: the midnight-crossing window 22:00–02:00 filters
departures by arc membership, and a lone `from` bound filters
nothing. -/
theorem window_filter_iff_witness :
    filter_routes [rParisLyon, rLyonNice] none none
        { dep_time_from := some "22:00", dep_time_to := some "02:00" } =
      .ok ([rParisLyon, rLyonNice].filter fun r =>
        decide (minutes_between ⟨1320, by decide⟩ r.dep_time ≤
          minutes_between ⟨1320, by decide⟩ ⟨120, by decide⟩)) ∧
    filter_routes [rParisLyon, rLyonNice] none none
        { dep_time_from := some "22:00" } = .ok [rParisLyon, rLyonNice] := by
  have h := window_filter_iff [rParisLyon, rLyonNice]
    ⟨1320, by decide⟩ ⟨120, by decide⟩ "22:00" "02:00"
    (by decide) (by decide) (by rfl) (by rfl)
  exact ⟨h.2.1, h.2.2.2.1⟩


/-! Membership characterizations of the three enumeration phases. -/

lemma mem_direct_iff (idx : String → List Route) (dep arr : String)
    (it : Itinerary) :
    it ∈ direct_itins idx dep arr ↔
    ∃ r ∈ routes_from_city idx dep,
      pyLower r.arr_city = pyLower arr ∧ it = ⟨[⟨r⟩], []⟩ := by
  simp only [direct_itins, List.mem_filterMap]
  constructor
  · rintro ⟨r, h1, h2⟩
    refine ⟨r, h1, ?_⟩
    by_cases hc : pyLower r.arr_city = pyLower arr
    · simp only [hc, if_pos] at h2
      exact ⟨hc, (Option.some_inj.mp h2).symm⟩
    · simp [hc] at h2
  · rintro ⟨r, h1, hc, he⟩
    exact ⟨r, h1, by simp [hc, he]⟩

lemma mem_one_stop_iff (idx : String → List Route) (dep arr : String)
    (mt : Int) (it : Itinerary) :
    it ∈ one_stop_itins idx dep arr mt ↔
    ∃ r1 ∈ routes_from_city idx dep,
      ∃ r2 ∈ routes_from_city idx r1.arr_city,
        pyLower r2.arr_city = pyLower arr ∧
        mt ≤ (minutes_between r1.arr_time r2.dep_time : Int) ∧
        it = ⟨[⟨r1⟩, ⟨r2⟩], [minutes_between r1.arr_time r2.dep_time]⟩ := by
  simp only [one_stop_itins, List.mem_flatMap, List.mem_filterMap]
  constructor
  · rintro ⟨r1, h1, r2, h2, h3⟩
    refine ⟨r1, h1, r2, h2, ?_⟩
    by_cases hc : pyLower r2.arr_city = pyLower arr
    · simp only [hc, if_pos] at h3
      by_cases ht : (minutes_between r1.arr_time r2.dep_time : Int) < mt
      · simp [ht] at h3
      · simp only [ht, if_neg, not_false_iff] at h3
        exact ⟨hc, le_of_not_lt ht, (Option.some_inj.mp h3).symm⟩
    · simp [hc] at h3
  · rintro ⟨r1, h1, r2, h2, hc, ht, he⟩
    refine ⟨r1, h1, r2, h2, ?_⟩
    simp [hc, he, not_lt_of_le ht]

lemma mem_two_stop_iff (idx : String → List Route) (dep arr : String)
    (mt : Int) (it : Itinerary) :
    it ∈ two_stop_itins idx dep arr mt ↔
    ∃ r1 ∈ routes_from_city idx dep,
      ∃ r2 ∈ routes_from_city idx r1.arr_city,
        ∃ r3 ∈ routes_from_city idx r2.arr_city,
          mt ≤ (minutes_between r1.arr_time r2.dep_time : Int) ∧
          pyLower r3.arr_city = pyLower arr ∧
          mt ≤ (minutes_between r2.arr_time r3.dep_time : Int) ∧
          it = ⟨[⟨r1⟩, ⟨r2⟩, ⟨r3⟩],
            [minutes_between r1.arr_time r2.dep_time,
             minutes_between r2.arr_time r3.dep_time]⟩ := by
  simp only [two_stop_itins, List.mem_flatMap]
  constructor
  · rintro ⟨r1, h1, r2, h2, h3⟩
    by_cases ht1 : (minutes_between r1.arr_time r2.dep_time : Int) < mt
    · simp [ht1] at h3
    · simp only [ht1, if_neg, not_false_iff, List.mem_filterMap] at h3
      obtain ⟨r3, h4, h5⟩ := h3
      refine ⟨r1, h1, r2, h2, r3, h4, le_of_not_lt ht1, ?_⟩
      by_cases hc : pyLower r3.arr_city = pyLower arr
      · simp only [hc, if_pos] at h5
        by_cases ht2 : (minutes_between r2.arr_time r3.dep_time : Int) < mt
        · simp [ht2] at h5
        · simp only [ht2, if_neg, not_false_iff] at h5
          exact ⟨hc, le_of_not_lt ht2, (Option.some_inj.mp h5).symm⟩
      · simp [hc] at h5
  · rintro ⟨r1, h1, r2, h2, r3, h3, ht1, hc, ht2, he⟩
    refine ⟨r1, h1, r2, h2, ?_⟩
    simp only [not_lt_of_le ht1, if_neg, not_false_iff, List.mem_filterMap]
    exact ⟨r3, h3, by simp [hc, he, not_lt_of_le ht2]⟩

/-- Claim C2: in the one-stop phase, for `r1` departing the origin and
`r2` departing `r1`'s arrival city and arriving (case-insensitively) at
the destination, the two-leg itinerary with transfer list
`[minutes_between(r1.arr_time, r2.dep_time)]` is emitted exactly when
that transfer meets `min_transfer`; no further same-day or
midnight-wrap condition is imposed. -/
theorem one_stop_emitted_iff (idx : String → List Route)
    (dep_city arr_city : String) (min_transfer : Int) (it : Itinerary) :
    it ∈ one_stop_itins idx dep_city arr_city min_transfer ↔
    ∃ r1 ∈ routes_from_city idx dep_city,
      ∃ r2 ∈ routes_from_city idx r1.arr_city,
        pyLower r2.arr_city = pyLower arr_city ∧
        min_transfer ≤ (minutes_between r1.arr_time r2.dep_time : Int) ∧
        it = ⟨[⟨r1⟩, ⟨r2⟩], [minutes_between r1.arr_time r2.dep_time]⟩ :=
  mem_one_stop_iff idx dep_city arr_city min_transfer it

/-! Deduplication lemmas. -/

lemma dedupGo_eq_keepFirst (l : List Itinerary) :
    ∀ seen, dedupGo seen l =
      keepFirstByKey (l.filter fun it => decide (itinKey it ∉ seen)) := by
  induction l with
  | nil => intro seen; simp [dedupGo, keepFirstByKey]
  | cons it rest ih =>
    intro seen
    by_cases h : itinKey it ∈ seen
    · simp only [dedupGo, if_pos h, List.filter_cons]
      rw [ih seen]
      simp [h]
    · simp only [dedupGo, if_neg h, List.filter_cons]
      have hd : decide (itinKey it ∉ seen) = true := by simpa using h
      rw [hd]
      simp only [if_pos]
      rw [keepFirstByKey]
      congr 1
      rw [ih (itinKey it :: seen), List.filter_filter]
      refine congrArg keepFirstByKey (List.filter_congr fun x hx => ?_)
      simp [List.mem_cons, not_or]

lemma dedup_eq_keepFirst (l : List Itinerary) :
    dedup_itineraries l = keepFirstByKey l := by
  rw [dedup_itineraries, dedupGo_eq_keepFirst l []]
  simp

lemma keepFirst_sublist : ∀ l : List Itinerary,
    List.Sublist (keepFirstByKey l) l := by
  intro l
  induction l using keepFirstByKey.induct with
  | case1 => simp [keepFirstByKey]
  | case2 it rest ih =>
    rw [keepFirstByKey]
    exact (ih.trans (List.filter_sublist rest)).cons₂ it

lemma keepFirst_keys_nodup : ∀ l : List Itinerary,
    ((keepFirstByKey l).map itinKey).Nodup := by
  intro l
  induction l using keepFirstByKey.induct with
  | case1 => simp [keepFirstByKey]
  | case2 it rest ih =>
    rw [keepFirstByKey]
    simp only [List.map_cons, List.nodup_cons]
    refine ⟨?_, ih⟩
    rintro hmem
    obtain ⟨x, hx, hkey⟩ := List.mem_map.mp hmem
    have hx' := (keepFirst_sublist _).subset hx
    have := List.of_mem_filter hx'
    simp only [decide_eq_true_iff] at this
    exact this hkey
/-- Claim C3: the list returned by `find_connected_itineraries` never
repeats a route-id tuple: it is exactly the enumeration-order list with
every later repetition of an already-seen key dropped (first occurrence
wins), hence a subsequence of the raw enumeration. -/
theorem find_connected_dedup (routes : List Route) (dc ac : String)
    (ms : Nat) (mt : Int) (kw : Kwargs) (l : List Itinerary)
    (h : find_connected_itineraries routes dc ac ms mt kw = .ok l) :
    (l.map itinKey).Nodup ∧
    ∃ filtered, filter_routes routes none none kw = .ok filtered ∧
      l = keepFirstByKey (connected_raw filtered dc ac ms mt) ∧
      List.Sublist l (connected_raw filtered dc ac ms mt) := by
  unfold find_connected_itineraries at h
  cases hf : filter_routes routes none none kw with
  | error e => rw [hf] at h; simp [Except.map] at h
  | ok filtered =>
    rw [hf] at h
    simp only [Except.map, Except.ok.injEq] at h
    subst h
    rw [dedup_eq_keepFirst]
    exact ⟨keepFirst_keys_nodup _, filtered, rfl, rfl, keepFirst_sublist _⟩

/-- Witness for C3 at scenario E: two identical route rows with the
same route-id produce a single itinerary. -/
theorem find_connected_dedup_witness :
    (([⟨[⟨rParisLyon⟩], []⟩] : List Itinerary).map itinKey).Nodup ∧
    ∃ filtered, filter_routes [rParisLyon, rParisLyon] none none {} =
        .ok filtered ∧
      ([⟨[⟨rParisLyon⟩], []⟩] : List Itinerary) =
        keepFirstByKey (connected_raw filtered "Paris" "Lyon" 0 10) ∧
      List.Sublist [⟨[⟨rParisLyon⟩], []⟩]
        (connected_raw filtered "Paris" "Lyon" 0 10) :=
  find_connected_dedup [rParisLyon, rParisLyon] "Paris" "Lyon" 0 10 {}
    [⟨[⟨rParisLyon⟩], []⟩] (by rfl)

/-! The adjacency index is the filtered list restricted to one
departure city. -/

lemma build_index_apply (rs : List Route) (k : String) :
    build_index rs k = rs.filter fun r => decide (k = pyLower r.dep_city) := by
  suffices h : ∀ acc : String → List Route,
      (rs.foldl
        (fun idx r k =>
          if k = pyLower r.dep_city then idx k ++ [r] else idx k) acc) k =
      acc k ++ rs.filter (fun r => decide (k = pyLower r.dep_city)) by
    simpa [build_index] using h (fun _ => [])
  induction rs with
  | nil => intro acc; simp
  | cons r rest ih =>
    intro acc
    rw [List.foldl_cons, ih, List.filter_cons]
    by_cases hk : k = pyLower r.dep_city
    · simp [hk]
    · simp [hk]

lemma routes_from_city_build (f : List Route) (c : String) :
    routes_from_city (build_index f) c =
      f.filter fun r => decide (pyLower c = pyLower r.dep_city) := by
  unfold routes_from_city
  exact build_index_apply f (pyLower c)

/-- When `filter_routes` succeeds, its output is a subset of its
input. -/
lemma filter_routes_ok_subset (routes : List Route) (dc ac : Option String)
    (kw : Kwargs) (f : List Route)
    (h : filter_routes routes dc ac kw = .ok f) : ∀ r ∈ f, r ∈ routes := by
  unfold filter_routes at h
  cases h1 : parseOptTime kw.dep_time_from with
  | error e => rw [h1] at h; exact absurd h (by simp)
  | ok dtf =>
  rw [h1] at h
  cases h2 : parseOptTime kw.dep_time_to with
  | error e => rw [h2] at h; exact absurd h (by simp)
  | ok dtt =>
  rw [h2] at h
  cases h3 : parseOptTime kw.arr_time_from with
  | error e => rw [h3] at h; exact absurd h (by simp)
  | ok atf =>
  rw [h3] at h
  cases h4 : parseOptTime kw.arr_time_to with
  | error e => rw [h4] at h; exact absurd h (by simp)
  | ok att =>
  rw [h4] at h
  simp only [Except.ok.injEq] at h
  subst h
  exact fun r hr => (List.mem_filter.mp hr).1

/-- Counterexample to C9 as stated: with a route departing and arriving
in the same city, a 0-stop search with origin = destination returns
that route as an itinerary. -/
theorem self_search_counterexample :
    find_connected_itineraries [rLoop] "Paris" "Paris" 0 10 {} =
      .ok [⟨[⟨rLoop⟩], []⟩] ∧
    ([⟨[⟨rLoop⟩], []⟩] : List Itinerary) ≠ [] :=
  ⟨rfl, by simp⟩

/-- Claim C9 (amended): provided no route of the collection departs and
arrives in the same city (case-insensitively) — the spec's stated model
assumption — a 0-stop search with origin = destination yields no
itineraries. -/
theorem self_search_no_direct (routes : List Route) (c : String) (mt : Int)
    (kw : Kwargs) (l : List Itinerary)
    (hno : ∀ r ∈ routes, pyLower r.dep_city ≠ pyLower r.arr_city)
    (h : find_connected_itineraries routes c c 0 mt kw = .ok l) :
    l = [] := by
  unfold find_connected_itineraries at h
  cases hf : filter_routes routes none none kw with
  | error e => rw [hf] at h; simp [Except.map] at h
  | ok filtered =>
  rw [hf] at h
  simp only [Except.map, Except.ok.injEq] at h
  subst h
  have hdirect : direct_itins (build_index filtered) c c = [] := by
    rw [List.eq_nil_iff_forall_not_mem]
    intro it hit
    obtain ⟨r, hr, harr, -⟩ := (mem_direct_iff _ c c it).mp hit
    rw [routes_from_city_build] at hr
    obtain ⟨hrf, hdep⟩ := List.mem_filter.mp hr
    have hdep' : pyLower c = pyLower r.dep_city := by
      simpa using hdep
    exact hno r (filter_routes_ok_subset routes none none kw filtered hf r hrf)
      (hdep'.symm.trans harr.symm)
  simp [connected_raw, hdirect, dedup_itineraries, dedupGo]

/-- Witness for the amended C9 on a loop-free collection. -/
theorem self_search_no_direct_witness :
    (∀ r ∈ [rParisLyon], pyLower r.dep_city ≠ pyLower r.arr_city) ∧
    find_connected_itineraries [rParisLyon] "Paris" "Paris" 0 10 {} =
      .ok [] ∧
    ([] : List Itinerary) = [] :=
  ⟨by decide, by rfl,
    self_search_no_direct [rParisLyon] "Paris" 10 {} [] (by decide) (by rfl)⟩

/-- A supplied non-empty but unparseable bound makes `parseOptTime`
propagate the `ValueError`. -/
lemma parseOptTime_fail (s m : String) (hne : s ≠ "")
    (hp : parse_time s = .error m) : parseOptTime (some s) = .error m := by
  simp [parseOptTime, hne, hp, Except.map]

/-- Counterexample to C8 as stated: an unknown day-of-week token does
not fail the call; it is silently normalized and used as a constraint
that no route satisfies, so the call succeeds (here with an empty
result). -/
theorem unknown_day_no_error :
    filter_routes [rParisLyon] none none { days := some ["Funday"] } =
      .ok [] := rfl

/-- Claim C8 (amended): an unparseable non-empty time-window bound
fails `filter_routes` (and hence the search call) immediately — for the
first bound in parse order with exactly the descriptive
`Unrecognized time format` message naming the value, and in general
with some error whenever any supplied bound is unparseable — whereas an
unknown day token never causes a failure. -/
theorem invalid_constraint_errors :
    (∀ (routes : List Route) (dc ac : Option String) (kw : Kwargs) (s msg : String),
      kw.dep_time_from = some s → s ≠ "" → parse_time s = .error msg →
      filter_routes routes dc ac kw = .error msg) ∧
    (∀ (routes : List Route) (dc ac : Option String) (kw : Kwargs),
      (∃ s, (kw.dep_time_from = some s ∨ kw.dep_time_to = some s ∨
             kw.arr_time_from = some s ∨ kw.arr_time_to = some s) ∧
        s ≠ "" ∧ ∃ m, parse_time s = .error m) →
      ∃ e, filter_routes routes dc ac kw = .error e) ∧
    (∀ (routes : List Route) (dc ac : Option String) (ds : List String),
      ∃ l, filter_routes routes dc ac { days := some ds } = .ok l) := by
  refine ⟨?_, ?_, ?_⟩
  · intro routes dc ac kw s msg hs hne hp
    unfold filter_routes
    rw [hs, parseOptTime_fail s msg hne hp]
  · intro routes dc ac kw ⟨s, hfield, hne, m, hp⟩
    unfold filter_routes
    cases h1 : parseOptTime kw.dep_time_from with
    | error e => exact ⟨e, rfl⟩
    | ok dtf =>
    cases h2 : parseOptTime kw.dep_time_to with
    | error e => exact ⟨e, rfl⟩
    | ok dtt =>
    cases h3 : parseOptTime kw.arr_time_from with
    | error e => exact ⟨e, rfl⟩
    | ok atf =>
    cases h4 : parseOptTime kw.arr_time_to with
    | error e => exact ⟨e, rfl⟩
    | ok att =>
    exfalso
    have hfail := parseOptTime_fail s m hne hp
    rcases hfield with h | h | h | h
    · rw [h, hfail] at h1; exact absurd h1 (by simp)
    · rw [h, hfail] at h2; exact absurd h2 (by simp)
    · rw [h, hfail] at h3; exact absurd h3 (by simp)
    · rw [h, hfail] at h4; exact absurd h4 (by simp)
  · intro routes dc ac ds
    exact ⟨_, rfl⟩

/-- Witness for the amended C8: `"banana"` as a departure bound fails
with the descriptive message; an unknown day token sails through. -/
theorem invalid_constraint_errors_witness :
    parse_time "banana" = .error "Unrecognized time format: banana" ∧
    filter_routes [rParisLyon] none none { dep_time_from := some "banana" } =
      .error "Unrecognized time format: banana" ∧
    (∃ e, filter_routes [rParisLyon] none none
      { arr_time_to := some "99:99" } = .error e) ∧
    (∃ l, filter_routes [rParisLyon] none none
      { days := some ["Funday"] } = .ok l) := by
  refine ⟨by rfl, ?_, ?_, ?_⟩
  · exact invalid_constraint_errors.1 [rParisLyon] none none
      { dep_time_from := some "banana" } "banana"
      "Unrecognized time format: banana" rfl (by decide) (by rfl)
  · exact invalid_constraint_errors.2.1 [rParisLyon] none none
      { arr_time_to := some "99:99" }
      ⟨"99:99", by simp, by decide, "Unrecognized time format: 99:99", by rfl⟩
  · exact invalid_constraint_errors.2.2 [rParisLyon] none none ["Funday"]

/-! Counting distinct keys: the dedup output length is the number of
distinct route-id tuples of the input. -/

lemma keepFirst_length_eq_card : ∀ l : List Itinerary,
    (keepFirstByKey l).length = (l.map itinKey).toFinset.card := by
  intro l
  induction l using keepFirstByKey.induct with
  | case1 => simp [keepFirstByKey]
  | case2 it rest ih =>
    rw [keepFirstByKey]
    simp only [List.length_cons, List.map_cons, List.toFinset_cons]
    rw [ih]
    have hset :
        ((rest.filter fun x => decide (itinKey x ≠ itinKey it)).map
          itinKey).toFinset =
        ((rest.map itinKey).toFinset).erase (itinKey it) := by
      ext a
      simp only [List.mem_toFinset, List.mem_map, List.mem_filter,
        Finset.mem_erase, decide_eq_true_iff]
      constructor
      · rintro ⟨x, ⟨hx, hne⟩, rfl⟩
        exact ⟨hne, x, hx, rfl⟩
      · rintro ⟨hne, x, hx, rfl⟩
        exact ⟨x, ⟨hx, hne⟩, rfl⟩
    have h1 : insert (itinKey it) ((rest.map itinKey).toFinset) =
        insert (itinKey it)
          (((rest.map itinKey).toFinset).erase (itinKey it)) := by
      ext a
      simp only [Finset.mem_insert, Finset.mem_erase]
      constructor
      · rintro (rfl | h)
        · exact Or.inl rfl
        · by_cases ha : a = itinKey it
          · exact Or.inl ha
          · exact Or.inr ⟨ha, h⟩
      · rintro (rfl | ⟨-, h⟩)
        · exact Or.inl rfl
        · exact Or.inr h
    rw [hset, h1, Finset.card_insert_of_not_mem (Finset.not_mem_erase _ _)]

/-- Raising the minimum transfer only shrinks (setwise) the raw
enumeration. -/
lemma connected_raw_mono (f : List Route) (dc ac : String) (ms : Nat)
    (m1 m2 : Int) (hm : m1 ≤ m2) (it : Itinerary)
    (h : it ∈ connected_raw f dc ac ms m2) :
    it ∈ connected_raw f dc ac ms m1 := by
  simp only [connected_raw, List.mem_append] at h ⊢
  rcases h with (h | h) | h
  · exact Or.inl (Or.inl h)
  · left; right
    by_cases hms : 1 ≤ ms
    · simp only [if_pos hms] at h ⊢
      rw [mem_one_stop_iff] at h ⊢
      obtain ⟨r1, h1, r2, h2, hc, ht, he⟩ := h
      exact ⟨r1, h1, r2, h2, hc, le_trans hm ht, he⟩
    · rw [if_neg hms] at h
      simp at h
  · right
    by_cases hms : 2 ≤ ms
    · simp only [if_pos hms] at h ⊢
      rw [mem_two_stop_iff] at h ⊢
      obtain ⟨r1, h1, r2, h2, r3, h3, ht1, hc, ht2, he⟩ := h
      exact ⟨r1, h1, r2, h2, r3, h3, le_trans hm ht1, hc,
        le_trans hm ht2, he⟩
    · rw [if_neg hms] at h
      simp at h

/-- Claim C7: increasing `min_transfer` never increases the number of
itineraries returned by `find_connected_itineraries` (any `max_stops`,
comparison after deduplication). -/
theorem min_transfer_count_antitone (routes : List Route) (dc ac : String)
    (ms : Nat) (m1 m2 : Int) (kw : Kwargs) (l1 l2 : List Itinerary)
    (hm : m1 ≤ m2)
    (h1 : find_connected_itineraries routes dc ac ms m1 kw = .ok l1)
    (h2 : find_connected_itineraries routes dc ac ms m2 kw = .ok l2) :
    l2.length ≤ l1.length := by
  unfold find_connected_itineraries at h1 h2
  cases hf : filter_routes routes none none kw with
  | error e => rw [hf] at h1; simp [Except.map] at h1
  | ok filtered =>
  rw [hf] at h1 h2
  simp only [Except.map, Except.ok.injEq] at h1 h2
  subst h1
  subst h2
  rw [dedup_eq_keepFirst, dedup_eq_keepFirst,
    keepFirst_length_eq_card, keepFirst_length_eq_card]
  apply Finset.card_le_card
  intro a ha
  simp only [List.mem_toFinset, List.mem_map] at ha ⊢
  obtain ⟨it, hit, rfl⟩ := ha
  exact ⟨it, connected_raw_mono filtered dc ac ms m1 m2 hm it hit, rfl⟩

/-- Witness for C7 on scenario B/C: raising the minimum transfer from
20 to 45 minutes drops the single one-stop itinerary. -/
theorem min_transfer_count_antitone_witness :
    ((20 : Int) ≤ 45) ∧
    ([] : List Itinerary).length ≤
      ([⟨[⟨rParisLyon⟩, ⟨rLyonNice⟩], [30]⟩] : List Itinerary).length :=
  ⟨by decide,
    min_transfer_count_antitone [rParisLyon, rLyonNice] "Paris" "Nice" 1
      20 45 {} [⟨[⟨rParisLyon⟩, ⟨rLyonNice⟩], [30]⟩] []
      (by decide) (by rfl) (by rfl)⟩

/-! The two ranking orders are total preorders. -/

lemma leDuration_iff (cls : String) (a b : Itinerary) :
    leDuration cls a b = true ↔
    (a.duration_minutes < b.duration_minutes ∨
      (a.duration_minutes = b.duration_minutes ∧
        a.price cls ≤ b.price cls)) := by
  simp [leDuration]

lemma lePrice_iff (cls : String) (a b : Itinerary) :
    lePrice cls a b = true ↔
    (a.price cls < b.price cls ∨
      (a.price cls = b.price cls ∧
        a.duration_minutes ≤ b.duration_minutes)) := by
  simp [lePrice]

lemma leDuration_trans (cls : String) (a b c : Itinerary)
    (hab : leDuration cls a b = true) (hbc : leDuration cls b c = true) :
    leDuration cls a c = true := by
  rw [leDuration_iff] at hab hbc ⊢
  rcases hab with h1 | ⟨h1, h2⟩ <;> rcases hbc with h3 | ⟨h3, h4⟩
  · exact Or.inl (lt_trans h1 h3)
  · exact Or.inl (h3 ▸ h1)
  · exact Or.inl (h1 ▸ h3)
  · exact Or.inr ⟨h1.trans h3, le_trans h2 h4⟩

lemma leDuration_total (cls : String) (a b : Itinerary) :
    leDuration cls a b = true ∨ leDuration cls b a = true := by
  rw [leDuration_iff, leDuration_iff]
  rcases Nat.lt_trichotomy a.duration_minutes b.duration_minutes with h | h | h
  · exact Or.inl (Or.inl h)
  · rcases le_total (a.price cls) (b.price cls) with hp | hp
    · exact Or.inl (Or.inr ⟨h, hp⟩)
    · exact Or.inr (Or.inr ⟨h.symm, hp⟩)
  · exact Or.inr (Or.inl h)

lemma lePrice_trans (cls : String) (a b c : Itinerary)
    (hab : lePrice cls a b = true) (hbc : lePrice cls b c = true) :
    lePrice cls a c = true := by
  rw [lePrice_iff] at hab hbc ⊢
  rcases hab with h1 | ⟨h1, h2⟩ <;> rcases hbc with h3 | ⟨h3, h4⟩
  · exact Or.inl (lt_trans h1 h3)
  · exact Or.inl (h3 ▸ h1)
  · exact Or.inl (h1 ▸ h3)
  · exact Or.inr ⟨h1.trans h3, le_trans h2 h4⟩

lemma lePrice_total (cls : String) (a b : Itinerary) :
    lePrice cls a b = true ∨ lePrice cls b a = true := by
  rw [lePrice_iff, lePrice_iff]
  rcases lt_trichotomy (a.price cls) (b.price cls) with h | h | h
  · exact Or.inl (Or.inl h)
  · rcases Nat.le_total a.duration_minutes b.duration_minutes with hd | hd
    · exact Or.inl (Or.inr ⟨h, hd⟩)
    · exact Or.inr (Or.inr ⟨h.symm, hd⟩)
  · exact Or.inr (Or.inl h)

/-- Claim C4: after `search_itineraries`, in `"duration"` mode every
adjacent pair is ordered by duration then chosen-class fare, and in
`"price"` mode by chosen-class fare then duration. -/
theorem search_results_sorted (routes : List Route)
    (dc ac : Option String) (kw : Kwargs) (cls : String) (ms : Nat)
    (mt : Int) (lim : Option Nat) (l l2 : List Itinerary)
    (hd : search_itineraries routes dc ac kw cls ms mt "duration" lim =
      .ok l)
    (hp : search_itineraries routes dc ac kw cls ms mt "price" lim =
      .ok l2) :
    List.Chain' (fun a b => a.duration_minutes < b.duration_minutes ∨
      (a.duration_minutes = b.duration_minutes ∧
        a.price cls ≤ b.price cls)) l ∧
    List.Chain' (fun a b => a.price cls < b.price cls ∨
      (a.price cls = b.price cls ∧
        a.duration_minutes ≤ b.duration_minutes)) l2 := by
  unfold search_itineraries at hd hp
  cases hc : find_connected_itineraries routes (dc.getD "") (ac.getD "")
      ms mt kw with
  | error e => rw [hc] at hd; simp [Except.map] at hd
  | ok its =>
  rw [hc] at hd hp
  simp only [Except.map, Except.ok.injEq] at hd hp
  have hne : ("duration" : String) ≠ "price" := by decide
  rw [if_neg hne] at hd
  rw [if_pos trivial] at hp
  constructor
  · have hsorted : List.Pairwise (fun a b => leDuration cls a b = true)
        (List.insertionSort (fun a b => leDuration cls a b = true) its) := by
      haveI : IsTotal Itinerary (fun a b => leDuration cls a b = true) :=
        ⟨leDuration_total cls⟩
      haveI : IsTrans Itinerary (fun a b => leDuration cls a b = true) :=
        ⟨leDuration_trans cls⟩
      exact List.sorted_insertionSort _ its
    have hl : List.Sublist l
        (List.insertionSort (fun a b => leDuration cls a b = true) its) := by
      cases lim with
      | none => rw [← hd]
      | some n => rw [← hd]; exact List.take_sublist n _
    exact ((List.Pairwise.sublist hl hsorted).imp
      fun hab => (leDuration_iff cls _ _).mp hab).chain'
  · have hsorted : List.Pairwise (fun a b => lePrice cls a b = true)
        (List.insertionSort (fun a b => lePrice cls a b = true) its) := by
      haveI : IsTotal Itinerary (fun a b => lePrice cls a b = true) :=
        ⟨lePrice_total cls⟩
      haveI : IsTrans Itinerary (fun a b => lePrice cls a b = true) :=
        ⟨lePrice_trans cls⟩
      exact List.sorted_insertionSort _ its
    have hl : List.Sublist l2
        (List.insertionSort (fun a b => lePrice cls a b = true) its) := by
      cases lim with
      | none => rw [← hp]
      | some n => rw [← hp]; exact List.take_sublist n _
    exact ((List.Pairwise.sublist hl hsorted).imp
      fun hab => (lePrice_iff cls _ _).mp hab).chain'

/-- Witness for C4 on scenario B (one itinerary returned in both
modes, the whole pipeline evaluated). -/
theorem search_results_sorted_witness :
    List.Chain' (fun a b : Itinerary =>
      a.duration_minutes < b.duration_minutes ∨
      (a.duration_minutes = b.duration_minutes ∧
        a.price "second" ≤ b.price "second"))
      [⟨[⟨rParisLyon⟩, ⟨rLyonNice⟩], [30]⟩] ∧
    List.Chain' (fun a b : Itinerary =>
      a.price "second" < b.price "second" ∨
      (a.price "second" = b.price "second" ∧
        a.duration_minutes ≤ b.duration_minutes))
      [⟨[⟨rParisLyon⟩, ⟨rLyonNice⟩], [30]⟩] :=
  search_results_sorted [rParisLyon, rLyonNice]
    (some "Paris") (some "Nice") {} "second" 1 10 (some 50)
    [⟨[⟨rParisLyon⟩, ⟨rLyonNice⟩], [30]⟩]
    [⟨[⟨rParisLyon⟩, ⟨rLyonNice⟩], [30]⟩]
    (by rfl) (by rfl)

end RailSearch
